import Mathlib

/-!
# Verification of the bestfriends core (cmd/app/main.go)

A shallow embedding of the core logic of `cmd/app/main.go`:

* the transaction-scoping helper `withTx`,
* the vote handler `voteProfile` (votes table with a UNIQUE (profile_id, voter_ip)
  constraint, INSERT .. ON CONFLICT DO NOTHING, an existence check, and a
  conditional increment of `profiles.votes_count` together with `updated_at = now()`),
* the listing query of `handleHome` (ORDER BY votes_count DESC, created_at DESC,
  optional substring filter on the stored lowercase `search_text`, LIMIT/OFFSET),
* the image-ingestion pipeline `processImageToWebP` and its nearest-neighbour
  resizer `resizeNearest`.

Timestamps are modelled as integers (Unix time).  Machine `int` arithmetic in the
resizer appears only as products and divisions of pixel coordinates and image
dimensions, all non-negative and far below overflow for any decodable image, so
they are modelled on `Nat`; Go's `int(float64(x)*float64(w)/float64(newW))` equals
the exact floor `x * w / newW` whenever `x * w < 2^52`, which holds for all
dimensions the `image` package can represent in practice, and is modelled as
`Nat` floor division.  The third-party pieces the code calls (`image.Decode`,
`jpeg.Encode`, the SQL engine) are parameters of the embedding: decoding is a
function to `Option`, encoding is a function returning the bytes written plus an
optional error (Go's `jpeg.Encode` writes into a `bytes.Buffer` and returns an
error value), and the SQL statements are translated statement by statement.
-/

/-! ## The transaction helper `withTx` (main.go lines 433-444)

`withTx` begins a transaction, runs `fn` against it, rolls back when `fn`
returns an error or panics (re-raising the panic), and otherwise commits.
A transaction body is modelled as a function from the durable state to an
outcome: a candidate new state (the state the store would expose after
`Commit`), an error, or a panic.  `Rollback` discards the candidate state,
so the durable state component of the result stays the input state. -/

/-- Outcome of running a transaction body `fn(tx)`: `ok s` means `fn` returned
`nil` having built up candidate state `s` through the transaction, `fail e`
means `fn` returned the error `e`, `panicked m` means `fn` panicked. -/
inductive TxOutcome (σ ε : Type) where
  | ok (s : σ)
  | fail (e : ε)
  | panicked (m : String)
deriving DecidableEq, Repr

/-- What `withTx` reports to its caller: the commit happened, or the error
from `fn` was returned after rollback, or the panic was re-raised after
rollback. -/
inductive TxResult (ε : Type) where
  | committed
  | failed (e : ε)
  | panicked (m : String)
deriving DecidableEq, Repr

/-- Shallow embedding of `withTx` (main.go lines 433-444): run `fn` on the
current durable state `db`; on `ok s` commit `s`; on an error or a panic roll
back, leaving the durable state at `db`. -/
def withTx {σ ε : Type} (db : σ) (fn : σ → TxOutcome σ ε) : TxResult ε × σ :=
  match fn db with
  | .ok s => (.committed, s)
  | .fail e => (.failed e, db)
  | .panicked m => (.panicked m, db)

/-! ## The durable data model (migrate(), main.go lines 140-171)

`profiles` rows carry the columns the handlers read or write; `photo_webp`
bytes are a list of naturals (octets).  The `votes` table of this file's
schema is keyed by `(profile_id, voter_ip)` with a UNIQUE constraint. -/

/-- One row of the `profiles` table. -/
structure ProfileRow where
  id : String
  fullName : String
  country : String
  city : String
  description : String
  photoWebp : List Nat
  photoContentType : String
  votesCount : Int
  createdAt : Int
  updatedAt : Int
deriving DecidableEq, Repr

/-- The durable state the handlers touch: the `profiles` table and the
`votes` table (a vote row is its key `(profile_id, voter_ip)`; the UNIQUE
constraint makes any further column irrelevant to the logic). -/
structure VoteDB where
  profiles : List ProfileRow
  votes : List (String × String)
deriving DecidableEq, Repr

/-- Observation `SELECT votes_count FROM profiles WHERE id = pid` (0 when absent),
used to observe the score in the statements below. -/
def scoreOf (db : VoteDB) (pid : String) : Int :=
  match db.profiles.find? (fun p => p.id = pid) with
  | some p => p.votesCount
  | none => 0

/-- Errors a vote transaction body can surface to `withTx`. -/
inductive VoteTxErr where
  | fkViolation
  | noRows
deriving DecidableEq, Repr

/-- Statement `INSERT INTO votes (profile_id, voter_ip) VALUES ($1,$2) ON CONFLICT
(profile_id, voter_ip) DO NOTHING` (main.go line 349): a conflicting row makes
the insert a no-op; otherwise the row is inserted, subject to the foreign key
on `profiles(id)` — a missing profile is an SQL error. -/
def insertVoteOnConflict (pid ip : String) (db : VoteDB) : Except VoteTxErr VoteDB :=
  if (pid, ip) ∈ db.votes then .ok db
  else if pid ∈ db.profiles.map (fun p => p.id) then
    .ok { db with votes := (pid, ip) :: db.votes }
  else .error .fkViolation

/-- Statement `SELECT true FROM votes WHERE profile_id = $1 AND voter_ip = $2`
(main.go line 353), scanned into `exists`; no row is `sql.ErrNoRows`. -/
def voteRowExists (pid ip : String) (db : VoteDB) : Bool :=
  decide ((pid, ip) ∈ db.votes)

/-- Statement `UPDATE profiles SET votes_count = votes_count + 1, updated_at = now()
WHERE id = $1` (main.go line 356). -/
def incrementVote (pid : String) (now : Int) (db : VoteDB) : VoteDB :=
  { db with
    profiles := db.profiles.map fun p =>
      if p.id = pid then { p with votesCount := p.votesCount + 1, updatedAt := now } else p }

/-- The transaction body of `voteProfile` (main.go lines 347-360): insert the
vote ignoring conflicts, check whether the row now exists, and if it does,
increment the profile's score and refresh `updated_at`. -/
def voteTxBody (pid ip : String) (now : Int) (db : VoteDB) : TxOutcome VoteDB VoteTxErr :=
  match insertVoteOnConflict pid ip db with
  | .error e => .fail e
  | .ok db1 =>
    if voteRowExists pid ip db1 then .ok (incrementVote pid now db1)
    else .fail .noRows

/-- The two responses `voteProfile` can write: the redirect to `/` on a `nil`
error from `withTx` (the request is accepted), or the 500 "db error" page. -/
inductive VoteResp where
  | redirect
  | dbError
deriving DecidableEq, Repr

/-- Shallow embedding of `voteProfile` (main.go lines 345-366): run the vote
transaction body under `withTx`; a `nil` error yields the 303 redirect,
anything else the 500 response.  A re-raised panic is answered by `net/http`'s
500 page, so it is folded into `dbError` here.  Returns the response and the
durable state after the request. -/
def voteProfile (pid ip : String) (now : Int) (db : VoteDB) : VoteResp × VoteDB :=
  match withTx db (voteTxBody pid ip now) with
  | (.committed, db') => (.redirect, db')
  | (.failed _, db') => (.dbError, db')
  | (.panicked _, db') => (.dbError, db')

/-- The `INSERT INTO profiles ...` of `handleCreateProfile` (main.go lines
290-299): a fresh row with `votes_count = 0` and `created_at = updated_at =
now()` (the column defaults). -/
def createProfile (id fullName country city description : String)
    (photo : List Nat) (contentType : String) (now : Int) (db : VoteDB) : VoteDB :=
  { db with
    profiles := db.profiles ++
      [{ id := id, fullName := fullName, country := country, city := city,
         description := description, photoWebp := photo,
         photoContentType := contentType, votesCount := 0,
         createdAt := now, updatedAt := now }] }

/-- The core write operations on the durable state after which rows can be
observed: a vote request and a profile creation.  (The remaining handlers only
read.) -/
inductive CoreOp where
  | vote (pid ip : String) (now : Int)
  | create (id fullName country city description : String)
      (photo : List Nat) (contentType : String) (now : Int)

/-- The timestamp (`now()`) at which a core operation runs. -/
def CoreOp.time : CoreOp → Int
  | .vote _ _ now => now
  | .create _ _ _ _ _ _ _ now => now

/-- The durable state after a core operation (for a vote, the state left
behind by `withTx`, whether committed or rolled back). -/
def applyCoreOp (op : CoreOp) (db : VoteDB) : VoteDB :=
  match op with
  | .vote pid ip now => (voteProfile pid ip now db).2
  | .create id fn c ci d ph ct now => createProfile id fn c ci d ph ct now db

/-- A fresh single-profile database: one profile `"e1"` with no votes,
created at time 100. -/
def freshDB : VoteDB :=
  { profiles := [{ id := "e1", fullName := "Ann Smith", country := "NL", city := "Delft",
                   description := "hi", photoWebp := [1, 2], photoContentType := "image/jpeg",
                   votesCount := 0, createdAt := 100, updatedAt := 100 }],
    votes := [] }

/-- Runs `k` sequential vote requests for profile `pid` from the same client IP,
starting from `db` (the serial order that serializable isolation reduces
concurrent executions to); returns the list of responses (most recent first)
and the final durable state. -/
def voteK (pid ip : String) (db : VoteDB) : Nat → List VoteResp × VoteDB
  | 0 => ([], db)
  | k + 1 =>
    let (rs, db') := voteK pid ip db k
    let (r, db'') := voteProfile pid ip (1000 + (k : Int)) db'
    (r :: rs, db'')

/-! ## The listing query of `handleHome` (main.go lines 186-200)

`SELECT ... FROM profiles [WHERE search_text LIKE '%' || lower(q) || '%']
ORDER BY votes_count DESC, created_at DESC LIMIT size OFFSET offset`.
The stored generated column `search_text` is
`lower(full_name || ' ' || location_country || ' ' || location_city || ' ' ||
description)` (migrate(), main.go line 153).  SQL leaves the relative order of
rows equal on both sort keys unspecified; the embedding realises the ORDER BY
with an insertion sort by the same keys, which is one of the permitted
orders. -/

/-- The generated `search_text` column of a profile row. -/
def searchText (p : ProfileRow) : String :=
  (p.fullName ++ " " ++ p.country ++ " " ++ p.city ++ " " ++ p.description).toLower

/-- Whether `needle` is a prefix of `hay` (character lists). -/
def startsWithChars : List Char → List Char → Bool
  | [], _ => true
  | _ :: _, [] => false
  | a :: as, b :: bs => a = b && startsWithChars as bs

/-- Whether `needle` occurs contiguously inside `hay`: the semantics of
`hay LIKE '%' || needle || '%'`. -/
def hasSubChars (needle : List Char) : List Char → Bool
  | [] => startsWithChars needle []
  | c :: rest => startsWithChars needle (c :: rest) || hasSubChars needle rest

/-- The ORDER BY relation of the listing query: `a` may come no later than `b`
iff `a` has a strictly higher score, or scores are equal and `a` was created
no earlier (`votes_count DESC, created_at DESC`). -/
def listedBefore (a b : ProfileRow) : Prop :=
  b.votesCount < a.votesCount ∨ (a.votesCount = b.votesCount ∧ b.createdAt ≤ a.createdAt)

instance : DecidableRel listedBefore := fun a b => by
  unfold listedBefore; exact inferInstance

instance : IsTotal ProfileRow listedBefore :=
  ⟨by intro a b; unfold listedBefore; omega⟩

instance : IsTrans ProfileRow listedBefore :=
  ⟨by intro a b c; unfold listedBefore; omega⟩

/-- The listing query of `handleHome` (main.go lines 186-200): with an empty
`q`, sort all profiles; otherwise filter by the LIKE pattern on `search_text`
first; then apply OFFSET and LIMIT. -/
def homeListing (q : String) (size offset : Nat) (db : VoteDB) : List ProfileRow :=
  let rows :=
    if q = "" then db.profiles
    else db.profiles.filter fun p => hasSubChars q.toLower.toList (searchText p).toList
  ((List.insertionSort listedBefore rows).drop offset).take size

/-! ## The image ingestion pipeline (main.go lines 385-431)

An `image.Image` is its bounds (`Min` point plus width and height, Go's
`b.Dx()`/`b.Dy()`) and its colour lookup `At`.  The pixel type is a type
parameter: the pipeline never inspects colours.  `jpeg.Encode` writes bytes
into a `bytes.Buffer` and returns an error value; it is a parameter
`enc : GoImage π → Nat → Option String × List Nat` giving, per quality, the
optional error and the bytes present in the buffer afterwards.  `image.Decode`
is a parameter returning `Option`. -/

/-- A decoded raster image: bounds `[minX, minX+width) × [minY, minY+height)`
and colour lookup `At` (Go `image.Image`). -/
structure GoImage (π : Type) where
  minX : Int
  minY : Int
  width : Nat
  height : Nat
  At : Int → Int → π

/-- Shallow embedding of `resizeNearest` (main.go lines 418-431): the
destination has bounds `[0,newW) × [0,newH)` and every destination pixel
`(x, y)` is the source pixel at
`(Min.X + int(float64(x)*float64(w)/float64(newW)),
  Min.Y + int(float64(y)*float64(h)/float64(newH)))`; for the coordinates the
loops produce (non-negative, below 2^26) the float expression is exactly the
floor division written here.  Destination coordinates the loops never visit
take the same formula (Go's `image.RGBA` zero value is never read by the rest
of the pipeline). -/
def resizeNearest {π : Type} (src : GoImage π) (newW newH : Nat) : GoImage π :=
  { minX := 0, minY := 0, width := newW, height := newH,
    At := fun x y =>
      src.At (src.minX + (x.toNat * src.width / newW : Nat))
             (src.minY + (y.toNat * src.height / newH : Nat)) }

/-- The resize step of `processImageToWebP` (main.go lines 390-397): images
wider than `maxWidth` are resized to width `maxWidth` and height
`int(float64(h) * float64(maxWidth) / float64(w))`; narrower images pass
through unchanged. -/
def resizeStep {π : Type} (img : GoImage π) (maxWidth : Nat) : GoImage π :=
  if img.width > maxWidth then
    resizeNearest img maxWidth (img.height * maxWidth / img.width)
  else img

/-- The failure modes of `processImageToWebP`: the decode error, an encoder
error surfaced from the quality loop, and the final "cannot fit image under
%d bytes" error. -/
inductive ProcErr where
  | decodeFailed
  | encodeFailed (msg : String)
  | cannotFit
deriving DecidableEq, Repr

/-- The qualities tried by the loop `for q := 80; q >= 40; q -= 5`. -/
def qualitySteps : List Nat := [80, 75, 70, 65, 60, 55, 50, 45, 40]

/-- The budget-fit search (main.go lines 398-415), over the remaining
qualities: at each quality, an encoder error aborts; a result within
`maxBytes` is returned with content type `image/jpeg`; otherwise the next
quality is tried.  When the list is exhausted, one final encode at quality 35
runs with its error discarded (`_ = jpeg.Encode(...)`), and only the size of
whatever landed in the buffer decides between `cannotFit` and success. -/
def fitLoop (enc : Nat → Option String × List Nat) (maxBytes : Nat) :
    List Nat → Except ProcErr (List Nat × String)
  | [] =>
    if (enc 35).2.length > maxBytes then .error .cannotFit
    else .ok ((enc 35).2, "image/jpeg")
  | q :: qs =>
    match enc q with
    | (some e, _) => .error (.encodeFailed e)
    | (none, out) =>
      if out.length ≤ maxBytes then .ok (out, "image/jpeg")
      else fitLoop enc maxBytes qs

/-- Shallow embedding of `processImageToWebP` (main.go lines 385-415):
decode (`ErrorDecode` when the bytes are not a known raster format), resize
when wider than `maxWidth`, then run the budget-fit search. -/
def processImageToWebP {π : Type} (dec : List Nat → Option (GoImage π))
    (enc : GoImage π → Nat → Option String × List Nat)
    (input : List Nat) (maxWidth maxBytes : Nat) : Except ProcErr (List Nat × String) :=
  match dec input with
  | none => .error .decodeFailed
  | some img0 => fitLoop (enc (resizeStep img0 maxWidth)) maxBytes qualitySteps

/-- Rounding to the nearest integer (half away from zero) of the rational
`a / b`, on naturals: the `round` of the spec's
`round(originalHeight * maxWidth / originalWidth)`. -/
def roundDiv (a b : Nat) : Nat := (2 * a + b) / (2 * b)

/-- The configured ceilings of the app (main.go lines 34-36). -/
def maxImageWidth : Nat := 1024

/-- The ceiling `maxStoredImageBytes = 500 * 1024` (main.go line 35). -/
def maxStoredImageBytes : Nat := 500 * 1024

/-! ## Claims about the transaction helper and the vote handler -/

/-- C5: whenever the function passed to `withTx` returns an error or panics,
the transaction is rolled back and the durable state is unchanged (and the
error, or the panic, is propagated); the transaction commits exactly when the
function returns without error, and the committed state is the candidate
state the function produced. -/
theorem withTx_commits_only_on_ok {σ ε : Type} (db : σ) (fn : σ → TxOutcome σ ε) :
    ((withTx db fn).1 = .committed → ∃ s, fn db = .ok s ∧ (withTx db fn).2 = s) ∧
    (∀ e, fn db = .fail e → withTx db fn = (.failed e, db)) ∧
    (∀ m, fn db = .panicked m → withTx db fn = (.panicked m, db)) := by
  cases h : fn db <;> simp [withTx, h]

/-- Witness for C5 at a concrete failing body: the state 7 survives the
rollback untouched and the error is reported. -/
theorem withTx_commits_only_on_ok_witness :
    withTx (σ := Nat) (ε := Unit) 7 (fun _ => .fail ()) = (.failed (), 7) :=
  (withTx_commits_only_on_ok 7 (fun _ => TxOutcome.fail ())).2.1 () rfl

/-- C1 (divergence witness): on a fresh profile `"e1"`, the first vote request
is accepted and raises the score to 1 — but the second request from the same
client, at a timestamp 10 seconds later (well inside any rate-limit window),
is also answered with the success redirect and raises the score to 2: the
existence check of `voteProfile` always finds the row that the preceding
`INSERT .. ON CONFLICT DO NOTHING` guarantees, so every request increments
`votes_count`, and no rate-limited response exists in the handler. -/
theorem voteProfile_second_vote_still_increments :
    (voteProfile "e1" "1.2.3.4" 1000 freshDB).1 = .redirect ∧
    scoreOf (voteProfile "e1" "1.2.3.4" 1000 freshDB).2 "e1" = 1 ∧
    (voteProfile "e1" "1.2.3.4" 1010 (voteProfile "e1" "1.2.3.4" 1000 freshDB).2).1 = .redirect ∧
    scoreOf (voteProfile "e1" "1.2.3.4" 1010 (voteProfile "e1" "1.2.3.4" 1000 freshDB).2).2 "e1"
      = 2 := by
  decide

/-- The profile row `"e1"` after `k` accepted votes of the run in
`voteK_all_accepted_score_k` (`updatedAt` carries the timestamp of the last
vote). -/
def e1After (k : Nat) : ProfileRow :=
  { id := "e1", fullName := "Ann Smith", country := "NL", city := "Delft",
    description := "hi", photoWebp := [1, 2], photoContentType := "image/jpeg",
    votesCount := k, createdAt := 100,
    updatedAt := if k = 0 then 100 else 1000 + ((k - 1 : Nat) : Int) }

/-- The durable state after `k` sequential votes for `"e1"` from one IP. -/
def voteKState (k : Nat) : VoteDB :=
  { profiles := [e1After k],
    votes := if k = 0 then [] else [("e1", "1.2.3.4")] }

/-- Running `k` sequential votes from one IP on the fresh single-profile
database: every request is answered with the success redirect and the final
state carries score `k`. -/
theorem voteK_run (k : Nat) :
    voteK "e1" "1.2.3.4" freshDB k = (List.replicate k .redirect, voteKState k) := by
  induction k with
  | zero => decide
  | succ k ih =>
    simp only [voteK, ih]
    cases k with
    | zero => decide
    | succ j =>
      simp only [voteProfile, withTx, voteTxBody, insertVoteOnConflict, voteRowExists,
        incrementVote, voteKState, e1After, freshDB]
      norm_num
      rfl

/-- C2 (divergence witness): `K` vote requests for the same fresh profile,
from the same client, in the serial order that serializable isolation reduces
simultaneous requests to: every one of the `K` requests is answered with the
success redirect (none is rate-limited) and the final score is `K`, not 1. -/
theorem voteK_all_accepted_score_k (k : Nat) :
    (voteK "e1" "1.2.3.4" freshDB k).1 = List.replicate k VoteResp.redirect ∧
    scoreOf (voteK "e1" "1.2.3.4" freshDB k).2 "e1" = k := by
  rw [voteK_run]
  refine ⟨rfl, ?_⟩
  simp [scoreOf, voteKState, e1After, List.find?]

/-- A default row, for total indexing into the profiles table. -/
def defaultRow : ProfileRow :=
  { id := "", fullName := "", country := "", city := "", description := "",
    photoWebp := [], photoContentType := "", votesCount := 0, createdAt := 0, updatedAt := 0 }

/-- Effect of the score-increment UPDATE on the row at index `i`: either the
row is untouched (score and `updated_at` both unchanged), or its score grew by
exactly 1 and its `updated_at` became the statement's `now()`. -/
theorem incr_getD (pid : String) (now : Int) (l : List ProfileRow) (i : Nat)
    (h : i < l.length) :
    (((l.map fun p => if p.id = pid
          then { p with votesCount := p.votesCount + 1, updatedAt := now } else p).getD
        i defaultRow).votesCount = (l.getD i defaultRow).votesCount ∧
      ((l.map fun p => if p.id = pid
          then { p with votesCount := p.votesCount + 1, updatedAt := now } else p).getD
        i defaultRow).updatedAt = (l.getD i defaultRow).updatedAt) ∨
    (((l.map fun p => if p.id = pid
          then { p with votesCount := p.votesCount + 1, updatedAt := now } else p).getD
        i defaultRow).votesCount = (l.getD i defaultRow).votesCount + 1 ∧
      ((l.map fun p => if p.id = pid
          then { p with votesCount := p.votesCount + 1, updatedAt := now } else p).getD
        i defaultRow).updatedAt = now) := by
  rw [List.getD_eq_getElem?_getD, List.getD_eq_getElem?_getD, List.getElem?_map,
    List.getElem?_eq_getElem h]
  by_cases hid : (l.get ⟨i, h⟩).id = pid
  · right
    simp [List.get_eq_getElem] at hid
    simp [hid]
  · left
    simp [List.get_eq_getElem] at hid
    simp [hid]

/-- C9: within the core, a post-creation operation (a vote request, with any
outcome, or the creation of another profile) rewrites an existing row's
`updated_at` exactly when it changes that row's score: either both score and
`updated_at` are left unchanged, or the score is incremented by exactly 1 and
`updated_at` is set to the operation's `now()`. -/
theorem updatedAt_refreshed_iff_score_changes (op : CoreOp) (db : VoteDB) (i : Nat)
    (h : i < db.profiles.length) :
    (((applyCoreOp op db).profiles.getD i defaultRow).votesCount
          = (db.profiles.getD i defaultRow).votesCount ∧
      ((applyCoreOp op db).profiles.getD i defaultRow).updatedAt
          = (db.profiles.getD i defaultRow).updatedAt) ∨
    (((applyCoreOp op db).profiles.getD i defaultRow).votesCount
          = (db.profiles.getD i defaultRow).votesCount + 1 ∧
      ((applyCoreOp op db).profiles.getD i defaultRow).updatedAt = op.time) := by
  cases op with
  | create id fn c ci d ph ct now =>
    left
    simp only [applyCoreOp, createProfile]
    rw [List.getD_eq_getElem?_getD, List.getElem?_append_left h, ← List.getD_eq_getElem?_getD]
    constructor <;> trivial
  | vote pid ip now =>
    simp only [applyCoreOp, voteProfile, withTx, voteTxBody, insertVoteOnConflict, CoreOp.time]
    by_cases h1 : (pid, ip) ∈ db.votes
    · have hex : voteRowExists pid ip db = true := by
        simp [voteRowExists, h1]
      simp only [if_pos h1, hex, if_true]
      exact incr_getD pid now db.profiles i h
    · by_cases h2 : pid ∈ db.profiles.map (fun p => p.id)
      · have hex : voteRowExists pid ip { db with votes := (pid, ip) :: db.votes } = true := by
          simp [voteRowExists]
        simp only [if_neg h1, if_pos h2, hex, if_true]
        exact incr_getD pid now db.profiles i h
      · simp only [if_neg h1, if_neg h2]
        left
        constructor <;> trivial

/-- Witness for C9: the vote at time 1000 on the fresh database, observed at
row 0. -/
theorem updatedAt_refreshed_iff_score_changes_witness :
    (((applyCoreOp (CoreOp.vote "e1" "1.2.3.4" 1000) freshDB).profiles.getD 0
          defaultRow).votesCount
        = (freshDB.profiles.getD 0 defaultRow).votesCount ∧
      ((applyCoreOp (CoreOp.vote "e1" "1.2.3.4" 1000) freshDB).profiles.getD 0
          defaultRow).updatedAt
        = (freshDB.profiles.getD 0 defaultRow).updatedAt) ∨
    (((applyCoreOp (CoreOp.vote "e1" "1.2.3.4" 1000) freshDB).profiles.getD 0
          defaultRow).votesCount
        = (freshDB.profiles.getD 0 defaultRow).votesCount + 1 ∧
      ((applyCoreOp (CoreOp.vote "e1" "1.2.3.4" 1000) freshDB).profiles.getD 0
          defaultRow).updatedAt
        = (CoreOp.vote "e1" "1.2.3.4" 1000).time) :=
  updatedAt_refreshed_iff_score_changes (CoreOp.vote "e1" "1.2.3.4" 1000) freshDB 0
    (by decide)

/-! ## Claims about the listing query -/

/-- A score-5 entry created at time 1 (the `T1` entry of the tie example). -/
def rowT1 : ProfileRow :=
  { id := "a", fullName := "A", country := "X", city := "Y", description := "d",
    photoWebp := [], photoContentType := "image/jpeg", votesCount := 5,
    createdAt := 1, updatedAt := 1 }

/-- A score-5 entry created at the later time 2 (the `T2` entry of the tie
example). -/
def rowT2 : ProfileRow :=
  { id := "b", fullName := "B", country := "X", city := "Y", description := "d",
    photoWebp := [], photoContentType := "image/jpeg", votesCount := 5,
    createdAt := 2, updatedAt := 2 }

/-- C8: every page the listing query returns is ordered by score descending
and, between equal scores, by creation time descending — every earlier entry
of the returned list relates to every later one by `listedBefore` — and on
the concrete tie (two score-5 entries created at times 1 and 2) the entry
created at time 2 is returned first. -/
theorem homeListing_sorted :
    (∀ (q : String) (size offset : Nat) (db : VoteDB),
      (homeListing q size offset db).Pairwise listedBefore) ∧
    homeListing "" 20 0 { profiles := [rowT1, rowT2], votes := [] } = [rowT2, rowT1] := by
  constructor
  · intro q size offset db
    unfold homeListing
    exact List.Pairwise.sublist
      ((List.take_sublist _ _).trans (List.drop_sublist _ _))
      (List.sorted_insertionSort listedBefore _)
  · decide

/-! ## Claims about the image ingestion pipeline -/

/-- Every success of the budget-fit search passed a size check: the returned
byte slice fits the budget. -/
theorem fitLoop_ok_le (enc : Nat → Option String × List Nat) (maxBytes : Nat) :
    ∀ (qs : List Nat) (out : List Nat) (ct : String),
      fitLoop enc maxBytes qs = .ok (out, ct) → out.length ≤ maxBytes := by
  intro qs
  induction qs with
  | nil =>
    intro out ct h
    unfold fitLoop at h
    split at h
    · exact absurd h (by simp)
    · obtain ⟨rfl, rfl⟩ : (enc 35).2 = out ∧ "image/jpeg" = ct := by
        simp only [Except.ok.injEq, Prod.mk.injEq] at h
        exact h
      omega
  | cons q qs ih =>
    intro out ct h
    unfold fitLoop at h
    rcases henc : enc q with ⟨oe, bytes⟩
    rw [henc] at h
    cases oe with
    | some e => exact absurd h (by simp)
    | none =>
      dsimp only at h
      split_ifs at h with hle
      · obtain ⟨rfl, rfl⟩ : bytes = out ∧ "image/jpeg" = ct := by
          simpa using h
        exact hle
      · exact ih out ct h

/-- C3: whenever ingestion succeeds, the encoded byte slice it returns is
within the configured output byte ceiling `maxBytes` — every success path of
`processImageToWebP` passed the `out.Len() <= maxBytes` check. -/
theorem processImageToWebP_output_within_budget {π : Type}
    (dec : List Nat → Option (GoImage π))
    (enc : GoImage π → Nat → Option String × List Nat)
    (input : List Nat) (maxWidth maxBytes : Nat) (out : List Nat) (ct : String)
    (h : processImageToWebP dec enc input maxWidth maxBytes = .ok (out, ct)) :
    out.length ≤ maxBytes := by
  unfold processImageToWebP at h
  cases hdec : dec input with
  | none => rw [hdec] at h; exact absurd h (by simp)
  | some img0 =>
    rw [hdec] at h
    exact fitLoop_ok_le _ _ _ _ _ h

/-- A concrete 4-by-2 one-colour image for the witnesses below. -/
def unitImg : GoImage Unit :=
  { minX := 0, minY := 0, width := 4, height := 2, At := fun _ _ => () }

/-- An encoder that always succeeds writing one byte. -/
def encOne : GoImage Unit → Nat → Option String × List Nat := fun _ _ => (none, [0])

/-- Witness for C3: with the one-byte encoder and a 10-byte budget, ingestion
succeeds at the first quality and the single returned byte fits the budget. -/
theorem processImageToWebP_output_within_budget_witness :
    processImageToWebP (fun _ => some unitImg) encOne [9] 1024 10
        = Except.ok ([0], "image/jpeg") ∧
      ([0] : List Nat).length ≤ 10 :=
  ⟨rfl, processImageToWebP_output_within_budget (fun _ => some unitImg) encOne
    [9] 1024 10 [0] "image/jpeg" rfl⟩

/-- Floor division is within 1 below rounding division: the truncating
`int(...)` height computation differs from the spec's `round(...)` by at most
one pixel. -/
theorem roundDiv_floor_bounds (a b : Nat) (hb : 0 < b) :
    a / b ≤ roundDiv a b ∧ roundDiv a b ≤ a / b + 1 := by
  have hmod : a % b < b := Nat.mod_lt a hb
  have h2b : 0 < 2 * b := by omega
  have key : roundDiv a b = (2 * (a % b) + b) / (2 * b) + a / b := by
    unfold roundDiv
    have hsplit : 2 * a + b = (2 * (a % b) + b) + (2 * b) * (a / b) := by
      conv_lhs => rw [← Nat.div_add_mod a b]
      ring
    rw [hsplit, Nat.add_mul_div_left _ _ h2b]
  have hlt : (2 * (a % b) + b) / (2 * b) < 2 := by
    rw [Nat.div_lt_iff_lt_mul h2b]
    omega
  obtain ⟨X, hX⟩ : ∃ X, (2 * (a % b) + b) / (2 * b) = X := ⟨_, rfl⟩
  obtain ⟨Q, hQ⟩ : ∃ Q, a / b = Q := ⟨_, rfl⟩
  rw [hQ] at key ⊢
  omega

/-- C6: for any decodable image strictly wider than `maxWidth`, the resized
image entering the encoder has width exactly `maxWidth` and height within one
pixel of `round(originalHeight * maxWidth / originalWidth)`. -/
theorem resizeStep_dims {π : Type} (img : GoImage π) (maxWidth : Nat)
    (h : maxWidth < img.width) :
    (resizeStep img maxWidth).width = maxWidth ∧
    (resizeStep img maxWidth).height ≤ roundDiv (img.height * maxWidth) img.width ∧
    roundDiv (img.height * maxWidth) img.width ≤ (resizeStep img maxWidth).height + 1 := by
  have hw : 0 < img.width := lt_of_le_of_lt (Nat.zero_le _) h
  have hb := roundDiv_floor_bounds (img.height * maxWidth) img.width hw
  unfold resizeStep
  rw [if_pos h]
  exact ⟨rfl, hb.1, hb.2⟩

/-- Witness for C6: the 4-by-2 image resized to maximum width 2 comes out
2 wide and 1 high, within a pixel of `round(2 * 2 / 4) = 1`. -/
theorem resizeStep_dims_witness :
    (resizeStep unitImg 2).width = 2 ∧
    (resizeStep unitImg 2).height ≤ roundDiv (unitImg.height * 2) unitImg.width ∧
    roundDiv (unitImg.height * 2) unitImg.width ≤ (resizeStep unitImg 2).height + 1 :=
  resizeStep_dims unitImg 2 (by decide)

/-- C7: during the pipeline's resize, each destination pixel `(x, y)` is the
plain nearest-source lookup at
`(floor(x * srcWidth / dstWidth), floor(y * srcHeight / dstHeight))` relative
to the source origin, with no interpolation, and that sampled offset always
lies inside the source bounds. -/
theorem resizeNearest_samples {π : Type} (img : GoImage π) (maxWidth x y : Nat)
    (hwide : maxWidth < img.width) (hx : x < maxWidth)
    (hy : y < img.height * maxWidth / img.width) :
    (resizeStep img maxWidth).At x y
        = img.At (img.minX + (x * img.width / maxWidth : Nat))
            (img.minY + (y * img.height / (img.height * maxWidth / img.width) : Nat)) ∧
    x * img.width / maxWidth < img.width ∧
    y * img.height / (img.height * maxWidth / img.width) < img.height := by
  have hw0 : 0 < img.width := lt_of_le_of_lt (Nat.zero_le _) hwide
  have hmw0 : 0 < maxWidth := lt_of_le_of_lt (Nat.zero_le _) hx
  have hnewH0 : 0 < img.height * maxWidth / img.width :=
    lt_of_le_of_lt (Nat.zero_le _) hy
  have hh0 : 0 < img.height := by
    rcases Nat.eq_zero_or_pos img.height with h0 | h0
    · rw [h0] at hnewH0
      simp at hnewH0
    · exact h0
  refine ⟨?_, ?_, ?_⟩
  · unfold resizeStep
    rw [if_pos hwide]
    unfold resizeNearest
    simp [Int.toNat_ofNat]
  · rw [Nat.div_lt_iff_lt_mul hmw0]
    calc x * img.width < maxWidth * img.width :=
          (Nat.mul_lt_mul_right hw0).mpr hx
      _ = img.width * maxWidth := Nat.mul_comm _ _
  · rw [Nat.div_lt_iff_lt_mul hnewH0]
    calc y * img.height < (img.height * maxWidth / img.width) * img.height :=
          (Nat.mul_lt_mul_right hh0).mpr hy
      _ = img.height * (img.height * maxWidth / img.width) := Nat.mul_comm _ _

/-- Witness for C7: resizing the 4-by-2 image to maximum width 2, destination
pixel (1, 0) samples source offset (2, 0), inside the 4-by-2 bounds. -/
theorem resizeNearest_samples_witness :
    (resizeStep unitImg 2).At 1 0
        = unitImg.At (unitImg.minX + (1 * unitImg.width / 2 : Nat))
            (unitImg.minY + (0 * unitImg.height / (unitImg.height * 2 / unitImg.width) : Nat)) ∧
    1 * unitImg.width / 2 < unitImg.width ∧
    0 * unitImg.height / (unitImg.height * 2 / unitImg.width) < unitImg.height :=
  resizeNearest_samples unitImg 2 1 0 (by decide) (by decide) (by decide)

/-- When every quality in the list encodes without error but over budget, and
the quality-35 encode is over budget too, the search ends in `cannotFit`. -/
theorem fitLoop_cannotFit (enc : Nat → Option String × List Nat) (maxBytes : Nat)
    (qs : List Nat)
    (hall : ∀ q ∈ qs, (enc q).1 = none ∧ maxBytes < (enc q).2.length)
    (hmin : maxBytes < (enc 35).2.length) :
    fitLoop enc maxBytes qs = .error .cannotFit := by
  induction qs with
  | nil =>
    unfold fitLoop
    rw [if_pos hmin]
  | cons q qs ih =>
    obtain ⟨hq, hrest⟩ := List.forall_mem_cons.mp hall
    unfold fitLoop
    rcases henc : enc q with ⟨oe, bytes⟩
    rw [henc] at hq
    cases oe with
    | some e => exact absurd hq.1 (by simp)
    | none =>
      dsimp only
      rw [if_neg (by simpa using hq.2), ih hrest]

/-- C4: for a decodable input whose minimum-quality (35) encode still exceeds
the byte budget — given that the encoder reports no error at any quality and
that its output size is monotone in quality, as JPEG encoding into a memory
buffer is — ingestion fails with the cannot-fit error and carries no partial
output. -/
theorem processImageToWebP_cannotFit {π : Type}
    (dec : List Nat → Option (GoImage π))
    (enc : GoImage π → Nat → Option String × List Nat)
    (input : List Nat) (maxWidth maxBytes : Nat) (img0 : GoImage π)
    (hdec : dec input = some img0)
    (hnoerr : ∀ q, (enc (resizeStep img0 maxWidth) q).1 = none)
    (hmono : ∀ q q', q ≤ q' →
      (enc (resizeStep img0 maxWidth) q).2.length
        ≤ (enc (resizeStep img0 maxWidth) q').2.length)
    (hmin : maxBytes < (enc (resizeStep img0 maxWidth) 35).2.length) :
    processImageToWebP dec enc input maxWidth maxBytes = .error .cannotFit := by
  unfold processImageToWebP
  rw [hdec]
  refine fitLoop_cannotFit _ _ _ ?_ hmin
  intro q hq
  have h35q : 35 ≤ q := by
    simp only [qualitySteps, List.mem_cons, List.not_mem_nil, or_false] at hq
    rcases hq with rfl | rfl | rfl | rfl | rfl | rfl | rfl | rfl | rfl <;> omega
  exact ⟨hnoerr q, lt_of_lt_of_le hmin (hmono 35 q h35q)⟩

/-- An encoder that always succeeds but writes five bytes at every quality. -/
def encBig : GoImage Unit → Nat → Option String × List Nat :=
  fun _ _ => (none, [0, 0, 0, 0, 0])

/-- Witness for C4: with the five-byte encoder and a 2-byte budget, every
encode is over budget and ingestion ends in the cannot-fit error. -/
theorem processImageToWebP_cannotFit_witness :
    processImageToWebP (fun _ => some unitImg) encBig [9] 1024 2
      = Except.error ProcErr.cannotFit :=
  processImageToWebP_cannotFit (fun _ => some unitImg) encBig [9] 1024 2 unitImg
    rfl (fun _ => rfl) (fun _ _ _ => Nat.le_refl _) (by decide)

/-- An encoder that succeeds with three bytes at qualities 40 and above but
fails having written nothing below that. -/
def encFailsAtMin : GoImage Unit → Nat → Option String × List Nat := fun _ q =>
  if 40 ≤ q then (none, [0, 0, 0]) else (some "write failed", [])

/-- C10: the final minimum-quality encode's error is discarded and only the
buffer length is checked: with an encoder whose every in-range quality
overshoots a 2-byte budget and whose quality-35 encode fails having written
nothing, ingestion returns the empty byte slice with content type
`image/jpeg` and no error — even though the final encode reported an
error. -/
theorem processImageToWebP_final_encode_error_ignored :
    processImageToWebP (fun _ => some unitImg) encFailsAtMin [9] 1024 2
        = Except.ok ([], "image/jpeg") ∧
      (encFailsAtMin (resizeStep unitImg 1024) 35).1 = some "write failed" := by
  constructor <;> rfl
